import Mathlib

/-!
Verification development for the tolerant data-cleaning pipeline of the
water-truck analytics dashboard (src/dashboard.py).

The two loaders `load_keuangan_data` and `load_gps_data` are embedded
shallowly: a pandas DataFrame is a list of rows, each row an association
list from (normalized, aliased) column names to cell values.  Cell values
mirror the dtypes that actually occur in the pipeline: missing (NaN/NaT),
raw text, parsed numbers (modelled as exact rationals), and parsed dates.
String helpers are re-implemented by structural recursion over character
lists so that every concrete claim instance can be settled by kernel
evaluation.

Modelling notes, all claim-irrelevant:
* pandas `read_csv` turns empty cells into NaN; this is `readCell`.
  Column dtype inference is immaterial because both loaders apply
  `astype(str)` before numeric parsing.
* `pd.to_numeric` is modelled on sign/decimal literals; special spellings
  such as "nan" or "inf" count as unparsable, which coincides downstream
  (NaN is zero-filled in the financial loader and dropped in the GPS one).
* `pd.to_datetime(..., format="%d/%m/%Y", errors="coerce")` is modelled as
  strict day/month/year parsing with calendar validation; the narrow
  pandas `Timestamp` year range is not modelled.
* Column-wise DataFrame assignments are per-cell operations, embedded as
  row-wise maps; the loop over columns is unrolled in source order.
-/

namespace WaterDash

/-- ASCII whitespace recognizer used to model Python `str.strip`. -/
def isSpaceCh (c : Char) : Bool :=
  c = ' ' || c = '\t' || c = '\n' || c = '\r' || c = '\x0b' || c = '\x0c'

/-- Model of Python `str.strip` (header normalization step). -/
def trimStr (s : String) : String :=
  String.mk (((s.data.dropWhile isSpaceCh).reverse.dropWhile isSpaceCh).reverse)

/-- Model of Python `str.lower` on ASCII header text. -/
def lowerStr (s : String) : String :=
  String.mk (s.data.map Char.toLower)

/-- `df.columns.str.strip().str.lower()` applied to one column name. -/
def normalizeName (s : String) : String :=
  lowerStr (trimStr s)

/-- Does the first list occur at the head of the second one. -/
def startsL : List Char → List Char → Bool
  | [], _ => true
  | _ :: _, [] => false
  | p :: ps, c :: cs => p = c && startsL ps cs

/-- Fuel-driven non-overlapping left-to-right replacement, the semantics of
Python `str.replace` for a non-empty pattern.  The fuel is the length of
the text, which suffices because each step consumes at least one char. -/
def replaceFuel (pat rep : List Char) : Nat → List Char → List Char
  | 0, l => l
  | _ + 1, [] => []
  | fuel + 1, c :: cs =>
    if startsL pat (c :: cs) then rep ++ replaceFuel pat rep fuel ((c :: cs).drop pat.length)
    else c :: replaceFuel pat rep fuel cs

/-- Model of Python `str.replace(pat, rep)` (patterns used by the loaders
are all non-empty; the empty-pattern guard keeps the function total). -/
def replaceStr (pat rep s : String) : String :=
  if pat.data.isEmpty then s
  else String.mk (replaceFuel pat.data rep.data s.data.length s.data)

/-- Split on a single separator character, Python `str.split(sep)`. -/
def splitChAux (sep : Char) : List Char → List Char → List String
  | [], acc => [String.mk acc.reverse]
  | c :: cs, acc =>
    if c = sep then String.mk acc.reverse :: splitChAux sep cs []
    else splitChAux sep cs (c :: acc)

/-- Split a string on a separator character. -/
def splitCh (sep : Char) (s : String) : List String :=
  splitChAux sep s.data []

/-- Numeric value of a digit string (callers check digits first). -/
def digitsVal (s : String) : Nat :=
  s.data.foldl (fun n c => n * 10 + (c.toNat - 48)) 0

/-- Non-empty and all decimal digits. -/
def allDigits (s : String) : Bool :=
  !s.data.isEmpty && s.data.all Char.isDigit

/-- A parsed calendar date (year, month, day). -/
structure PDate where
  year : Nat
  month : Nat
  day : Nat
deriving DecidableEq

/-- Gregorian leap-year rule. -/
def isLeap (y : Nat) : Bool :=
  (y % 4 = 0 && y % 100 ≠ 0) || y % 400 = 0

/-- Number of days in a month, for calendar validation. -/
def daysInMonth (y m : Nat) : Nat :=
  if m = 2 then (if isLeap y then 29 else 28)
  else if m = 4 || m = 6 || m = 9 || m = 11 then 30
  else 31

/-- Model of strict `strptime` with format `%d/%m/%Y`: day and month are one
or two digits, the year exactly four digits, and the triple must be a real
calendar date; anything else fails (and becomes NaT under `coerce`). -/
def parseDate (s : String) : Option PDate :=
  match splitCh '/' s with
  | [d, m, y] =>
    if allDigits d && d.data.length ≤ 2 && allDigits m && m.data.length ≤ 2
        && allDigits y && y.data.length = 4 then
      let dn := digitsVal d
      let mn := digitsVal m
      let yn := digitsVal y
      if 1 ≤ yn && 1 ≤ mn && mn ≤ 12 && 1 ≤ dn && dn ≤ daysInMonth yn mn then
        some ⟨yn, mn, dn⟩
      else none
    else none
  | _ => none

/-- English month name, as produced by `strftime("%B")`. -/
def monthName : Nat → String
  | 1 => "January"
  | 2 => "February"
  | 3 => "March"
  | 4 => "April"
  | 5 => "May"
  | 6 => "June"
  | 7 => "July"
  | 8 => "August"
  | 9 => "September"
  | 10 => "October"
  | 11 => "November"
  | 12 => "December"
  | _ => ""

/-- Two-digit zero padding, `strftime("%m")`. -/
def pad2 (n : Nat) : String :=
  if n < 10 then "0" ++ toString n else toString n

/-- Four-digit zero padding, `strftime("%Y")`. -/
def pad4 (n : Nat) : String :=
  if n < 10 then "000" ++ toString n
  else if n < 100 then "00" ++ toString n
  else if n < 1000 then "0" ++ toString n
  else toString n

/-- The derived month bucket `strftime("%Y-%m (%B)")` of a parsed date. -/
def bucketOf (d : PDate) : String :=
  pad4 d.year ++ "-" ++ pad2 d.month ++ " (" ++ monthName d.month ++ ")"

/-- Powers of ten, for decimal mantissa/denominator arithmetic. -/
def pow10 : Nat → Nat
  | 0 => 1
  | n + 1 => 10 * pow10 n

/-- Attach the parsed sign to an unsigned mantissa. -/
def signedInt (neg : Bool) (n : Nat) : Int :=
  if neg then -(n : Int) else (n : Int)

/-- Model of `pd.to_numeric` on one string: optional sign, decimal digits
with at most one point, surrounding whitespace tolerated.  Numbers are
idealized as exact rationals, built with `mkRat` from the decimal
mantissa and a power-of-ten denominator. -/
def parseNumber (s : String) : Option ℚ :=
  let t := trimStr s
  let neg := startsL ['-'] t.data
  let core := if startsL ['-'] t.data || startsL ['+'] t.data then String.mk (t.data.drop 1) else t
  match splitCh '.' core with
  | [a] =>
    if allDigits a then some (mkRat (signedInt neg (digitsVal a)) 1) else none
  | [a, b] =>
    if (a.data.all Char.isDigit && b.data.all Char.isDigit)
        && !(a.data.isEmpty && b.data.isEmpty) then
      some (mkRat (signedInt neg (digitsVal a * pow10 b.data.length + digitsVal b)) (pow10 b.data.length))
    else none
  | _ => none

/-- A DataFrame cell: missing (NaN/NaT), raw text, parsed number, parsed date. -/
inductive Value where
  | na : Value
  | str : String → Value
  | num : ℚ → Value
  | date : PDate → Value
deriving DecidableEq

/-- Is the cell a missing marker. -/
def Value.isNa : Value → Bool
  | Value.na => true
  | _ => false

/-- A cell as read by `pd.read_csv`: an absent or empty field is NaN. -/
def readCell : Option String → Value
  | none => Value.na
  | some s => if s = "" then Value.na else Value.str s

/-- A DataFrame row: association list from column name to cell value. -/
abbrev Row := List (String × Value)

/-- Value of a row at a column name (missing marker when absent). -/
def rowGet : Row → String → Value
  | [], _ => Value.na
  | (a, v) :: r, k => if a = k then v else rowGet r k

/-- Does a row carry the given column. -/
def hasKey : Row → String → Bool
  | [], _ => false
  | (a, _) :: r, k => if a = k then true else hasKey r k

/-- Column names of a row. -/
def keysOf (r : Row) : List String :=
  r.map Prod.fst

/-- Column-wise DataFrame assignment `df[k] = f(df[k])`, per row. -/
def mapAtKey (k : String) (f : Value → Value) : Row → Row
  | [] => []
  | (a, v) :: r => (a, if a = k then f v else v) :: mapAtKey k f r

/-- Relabel the columns of a row (`df.rename` / header normalization). -/
def mapRowKeys (f : String → String) (r : Row) : Row :=
  r.map (fun p => (f p.1, p.2))

/-- Guarded assignment `if k in df.columns: df[k] = f(df[k])`, per row. -/
def applyIfMem (hs : List String) (k : String) (f : Value → Value) (r : Row) : Row :=
  if k ∈ hs then mapAtKey k f r else r

/-- Apply a static alias table to one column name (`df.rename(columns=m)`). -/
def renameKey : List (String × String) → String → String
  | [], k => k
  | (a, b) :: m, k => if a = k then b else renameKey m k

/-- The raw file contents handed to a loader: header names and the text
cells of each data row (a missing field is `none`). -/
structure RawTable where
  headers : List String
  rows : List (List (Option String))
deriving DecidableEq

/-- A cleaned table: canonical column names plus cleaned rows. -/
structure Table where
  headers : List String
  rows : List Row
deriving DecidableEq

/-- Pair up headers with the cells of one raw row (short rows are padded
with missing markers, as `read_csv` does). -/
def readRow : List String → List (Option String) → Row
  | [], _ => []
  | h :: hs, [] => (h, Value.na) :: readRow hs []
  | h :: hs, c :: cs => (h, readCell c) :: readRow hs cs

/-- Typed outcome of the financial loader: a cleaned table, the handled
failure path (message shown, `None` returned), or an exception escaping
the function uncaught. -/
inductive LoadResult (α : Type) where
  | ok : α → LoadResult α
  | failed : LoadResult α
  | raised : LoadResult α
deriving DecidableEq

/-- Did the loader produce a table. -/
def LoadResult.isOk {α : Type} : LoadResult α → Bool
  | LoadResult.ok _ => true
  | _ => false

/-- The static alias table of the financial loader (`column_mapping`). -/
def finColMap : List (String × String) :=
  [("plat nomor", "nopol"), ("volume (l)", "jumlahair"), ("jumlah air", "jumlahair")]

/-- Financial headers after normalization and aliasing. -/
def finHeadersL (hs0 : List String) : List String :=
  (hs0.map normalizeName).map (renameKey finColMap)

/-- One financial row after reading, header normalization and aliasing. -/
def finRow0 (hs0 : List String) (cs : List (Option String)) : Row :=
  mapRowKeys (renameKey finColMap) (mapRowKeys normalizeName (readRow hs0 cs))

/-- `pd.to_datetime(..., format="%d/%m/%Y", errors="coerce")` on one cell. -/
def toDatetimeCell : Value → Value
  | Value.str s => (parseDate s).elim Value.na Value.date
  | _ => Value.na

/-- One financial row after the date-conversion step. -/
def finDateRow (hs0 : List String) (cs : List (Option String)) : Row :=
  mapAtKey "tanggal" toDatetimeCell (finRow0 hs0 cs)

/-- The hard date filter `df.dropna(subset=["tanggal"])`, per row. -/
def finKeepDate (r : Row) : Bool :=
  !(rowGet r "tanggal").isNa

/-- `astype(str)` on one cell: NaN prints as "nan"; the numeric and date
branches are unreachable in the loader (those columns hold raw text or
missing markers when `astype` runs) but keep the function total. -/
def valueToStr : Value → String
  | Value.na => "nan"
  | Value.str s => s
  | Value.num q => toString q.num
  | Value.date _ => "NaT"

/-- Strip the currency marker and thousands separators:
`.str.replace("Rp", "").str.replace(".", "")`. -/
def stripMoney (s : String) : String :=
  replaceStr "." "" (replaceStr "Rp" "" s)

/-- The cleaned numeric amount of a monetary/quantity cell:
strip, `to_numeric(..., errors="coerce")`, then `fillna(0)`. -/
def moneyQ (v : Value) : ℚ :=
  (parseNumber (stripMoney (valueToStr v))).getD 0

/-- Monetary cleaning as a cell-to-cell operation. -/
def moneyCell (v : Value) : Value :=
  Value.num (moneyQ v)

/-- The categorical backfill `fillna("Tidak Diketahui")` on one cell. -/
def fillTD : Value → Value
  | Value.na => Value.str "Tidak Diketahui"
  | v => v

/-- The canonical monetary/quantity column names. -/
def moneyCols : List String :=
  ["pemasukan", "pengeluaran", "jumlahair"]

/-- The canonical categorical column names. -/
def catColsL : List String :=
  ["nopol", "sopir", "jenis transaksi"]

/-- The numeric-cleaning loop of the financial loader, unrolled in source
order; each column is processed only when present. -/
def numClean (hs : List String) (r : Row) : Row :=
  applyIfMem hs "jumlahair" moneyCell
    (applyIfMem hs "pengeluaran" moneyCell
      (applyIfMem hs "pemasukan" moneyCell r))

/-- The categorical-backfill loop of the financial loader, unrolled in
source order; each column is processed only when present. -/
def catClean (hs : List String) (r : Row) : Row :=
  applyIfMem hs "jenis transaksi" fillTD
    (applyIfMem hs "sopir" fillTD
      (applyIfMem hs "nopol" fillTD r))

/-- The derived `Nama_Bulan` cell from the parsed date cell. -/
def monthBucketCell : Value → Value
  | Value.date d => Value.str (bucketOf d)
  | _ => Value.na

/-- `df["Nama_Bulan"] = df["tanggal"].dt.strftime("%Y-%m (%B)")`, per row. -/
def addMonthBucket (r : Row) : Row :=
  r ++ [("Nama_Bulan", monthBucketCell (rowGet r "tanggal"))]

/-- The numeric, categorical and month-bucket stages after the date filter. -/
def finPostRow (hs0 : List String) (r : Row) : Row :=
  addMonthBucket (catClean (finHeadersL hs0) (numClean (finHeadersL hs0) r))

/-- `load_keuangan_data`.  The input is `none` when `pd.read_csv` itself
raises (file missing or unreadable).  In that case the except handler
shows its message but then evaluates `df.columns.tolist()` with `df`
unbound, so an `UnboundLocalError` escapes the function: `raised`.  When
the file is read but the `tanggal` column is absent after normalization
and aliasing, `df["tanggal"]` raises `KeyError`, `df` is bound, and the
handler completes and returns `None`: `failed`. -/
def load_keuangan_data : Option RawTable → LoadResult Table
  | none => LoadResult.raised
  | some raw =>
    if "tanggal" ∈ finHeadersL raw.headers then
      LoadResult.ok
        ⟨finHeadersL raw.headers ++ ["Nama_Bulan"],
          ((raw.rows.map (finDateRow raw.headers)).filter finKeepDate).map
            (finPostRow raw.headers)⟩
    else LoadResult.failed

/-- The alias table of the GPS loader. -/
def gpsColMap : List (String × String) :=
  [("nama lokasi", "lokasi")]

/-- GPS headers after normalization and aliasing (the source guards the
rename with a membership test, which is a no-op exactly when the alias
is absent, so the unconditional relabeling is extensionally the same). -/
def gpsHeadersL (hs0 : List String) : List String :=
  (hs0.map normalizeName).map (renameKey gpsColMap)

/-- One GPS row after reading, header normalization and aliasing. -/
def gpsRow0 (hs0 : List String) (cs : List (Option String)) : Row :=
  mapRowKeys (renameKey gpsColMap) (mapRowKeys normalizeName (readRow hs0 cs))

/-- Coordinate coercion: decimal comma to decimal point, then
`to_numeric(..., errors="coerce")` (no zero fill). -/
def coordCell (v : Value) : Value :=
  match parseNumber (replaceStr "," "." (valueToStr v)) with
  | some q => Value.num q
  | none => Value.na

/-- One GPS row after both coordinate columns are coerced. -/
def gpsCoordRow (hs0 : List String) (cs : List (Option String)) : Row :=
  mapAtKey "longitude" coordCell (mapAtKey "latitude" coordCell (gpsRow0 hs0 cs))

/-- `df.dropna(subset=["latitude", "longitude"])`, per row. -/
def coordPresent (r : Row) : Bool :=
  !(rowGet r "latitude").isNa && !(rowGet r "longitude").isNa

/-- Inclusive range check on a coerced cell, `Series.between`. -/
def numBetween (lo hi : ℚ) : Value → Bool
  | Value.num q => decide (lo ≤ q) && decide (q ≤ hi)
  | _ => false

/-- The geographic validity filter of the GPS loader, per row. -/
def coordInRange (r : Row) : Bool :=
  numBetween (-90) 90 (rowGet r "latitude") && numBetween (-180) 180 (rowGet r "longitude")

/-- The GPS rows surviving coercion, dropna and the range filter. -/
def gpsKeptRows (raw : RawTable) : List Row :=
  ((raw.rows.map (gpsCoordRow raw.headers)).filter coordPresent).filter coordInRange

/-- `load_gps_data`.  The input is `none` when `pd.read_csv` raises; the
handler then returns `None`.  A missing coordinate column raises
`KeyError` inside the coercion loop, also handled to `None`.  An empty
post-filter table is reported with `st.error` and also returns `None` —
the same value as every failure path. -/
def load_gps_data : Option RawTable → Option Table
  | none => none
  | some raw =>
    if "latitude" ∈ gpsHeadersL raw.headers ∧ "longitude" ∈ gpsHeadersL raw.headers then
      if (gpsKeptRows raw).isEmpty then none
      else some ⟨gpsHeadersL raw.headers, gpsKeptRows raw⟩
    else none

/-- The gate at the top of `main`: both loads must have produced a table
(`if df_keuangan is None or df_gps is None: st.stop()`), otherwise no
view — financial or geographic — is rendered. -/
def dashboardRenders (k : LoadResult Table) (g : Option Table) : Bool :=
  k.isOk && g.isSome

/-! Concrete input tables and their expected cleaned forms, used to settle
the scenario claims and to instantiate the universally quantified ones. -/

/-- Financial file whose income cell holds a plain negative number. -/
def c1raw : RawTable :=
  ⟨["tanggal", "pemasukan"], [[some "01/01/2024", some "-5"]]⟩

/-- The cleaned table the loader produces from `c1raw`. -/
def c1out : Table :=
  ⟨["tanggal", "pemasukan", "Nama_Bulan"],
    [[("tanggal", Value.date ⟨2024, 1, 1⟩), ("pemasukan", Value.num (mkRat (-5) 1)),
      ("Nama_Bulan", Value.str "2024-01 (January)")]]⟩

/-- Financial file with a currency-formatted non-negative income. -/
def w1raw : RawTable :=
  ⟨["tanggal", "pemasukan"], [[some "15/03/2024", some "Rp2.000"]]⟩

/-- The cleaned table the loader produces from `w1raw`. -/
def w1out : Table :=
  ⟨["tanggal", "pemasukan", "Nama_Bulan"],
    [[("tanggal", Value.date ⟨2024, 3, 15⟩), ("pemasukan", Value.num (mkRat 2000 1)),
      ("Nama_Bulan", Value.str "2024-03 (March)")]]⟩

/-- The single cleaned row of `w1out`. -/
def w1row : Row :=
  [("tanggal", Value.date ⟨2024, 3, 15⟩), ("pemasukan", Value.num (mkRat 2000 1)),
    ("Nama_Bulan", Value.str "2024-03 (March)")]

/-- GPS file read successfully but with no valid row: one out-of-range
latitude and one missing latitude. -/
def c2raw : RawTable :=
  ⟨["nama lokasi", "latitude", "longitude"],
    [[some "A", some "999", some "0"], [some "B", none, some "1"]]⟩

/-- A financial table standing for a successful financial load in the
`main` gate. -/
def c2fin : Table :=
  ⟨["tanggal"], []⟩

/-- GPS file whose only row fails the latitude range check. -/
def w2raw : RawTable :=
  ⟨["latitude", "longitude"], [[some "95", some "110"]]⟩

/-- A financial table standing for a successful financial load. -/
def w2fin : Table :=
  ⟨[], []⟩

/-- The spec scenario input: date 15/03/2024, income Rp1.500.000, plate
B1234XY, with header variants exercising normalization and aliasing. -/
def c3raw : RawTable :=
  ⟨[" Tanggal ", "Pemasukan", "Plat Nomor"],
    [[some "15/03/2024", some "Rp1.500.000", some "B1234XY"]]⟩

/-- The cleaned table the loader produces from `c3raw`. -/
def c3out : Table :=
  ⟨["tanggal", "pemasukan", "nopol", "Nama_Bulan"],
    [[("tanggal", Value.date ⟨2024, 3, 15⟩), ("pemasukan", Value.num (mkRat 1500000 1)),
      ("nopol", Value.str "B1234XY"), ("Nama_Bulan", Value.str "2024-03 (March)")]]⟩

/-- Financial file with one good row and one unparsable date. -/
def c4raw : RawTable :=
  ⟨["tanggal", "sopir"],
    [[some "15/03/2024", some "Budi"], [some "not-a-date", some "Siti"]]⟩

/-- The cleaned table from `c4raw`: the bad-date row is gone. -/
def c4out : Table :=
  ⟨["tanggal", "sopir", "Nama_Bulan"],
    [[("tanggal", Value.date ⟨2024, 3, 15⟩), ("sopir", Value.str "Budi"),
      ("Nama_Bulan", Value.str "2024-03 (March)")]]⟩

/-- The surviving cleaned row of `c4out`. -/
def c4row0 : Row :=
  [("tanggal", Value.date ⟨2024, 3, 15⟩), ("sopir", Value.str "Budi"),
    ("Nama_Bulan", Value.str "2024-03 (March)")]

/-- GPS file with one valid row and the spec scenario row lat 95, lon 110. -/
def c5raw : RawTable :=
  ⟨["Nama Lokasi", "Latitude", "Longitude"],
    [[some "Depot A", some "-6.2", some "106.8"], [some "Depot B", some "95", some "110"]]⟩

/-- The cleaned table from `c5raw`: only the in-range row remains. -/
def c5out : Table :=
  ⟨["lokasi", "latitude", "longitude"],
    [[("lokasi", Value.str "Depot A"), ("latitude", Value.num (mkRat (-62) 10)),
      ("longitude", Value.num (mkRat 1068 10))]]⟩

/-- The surviving cleaned row of `c5out`. -/
def c5row0 : Row :=
  [("lokasi", Value.str "Depot A"), ("latitude", Value.num (mkRat (-62) 10)),
    ("longitude", Value.num (mkRat 1068 10))]

/-- GPS file with decimal-comma coordinates, the spec scenario. -/
def c6raw : RawTable :=
  ⟨["nama lokasi", "latitude", "longitude"],
    [[some "Titik X", some "1,234", some "103,456"]]⟩

/-- The cleaned table from `c6raw`. -/
def c6out : Table :=
  ⟨["lokasi", "latitude", "longitude"],
    [[("lokasi", Value.str "Titik X"), ("latitude", Value.num (mkRat 1234 1000)),
      ("longitude", Value.num (mkRat 103456 1000))]]⟩

/-- Financial file whose driver cell is missing. -/
def c7raw : RawTable :=
  ⟨["tanggal", "sopir"], [[some "15/03/2024", none]]⟩

/-- The cleaned table from `c7raw`: the sentinel fills the driver field. -/
def c7out : Table :=
  ⟨["tanggal", "sopir", "Nama_Bulan"],
    [[("tanggal", Value.date ⟨2024, 3, 15⟩), ("sopir", Value.str "Tidak Diketahui"),
      ("Nama_Bulan", Value.str "2024-03 (March)")]]⟩

/-- The single cleaned row of `c7out`. -/
def c7row0 : Row :=
  [("tanggal", Value.date ⟨2024, 3, 15⟩), ("sopir", Value.str "Tidak Diketahui"),
    ("Nama_Bulan", Value.str "2024-03 (March)")]

/-- A readable financial file without any date column. -/
def w9raw : RawTable :=
  ⟨["pemasukan", "sopir"], [[some "Rp1.000", some "Budi"]]⟩

/-- A financial file carrying only the date column and an income column;
the other optional columns are absent. -/
def w10raw : RawTable :=
  ⟨["tanggal", "pemasukan"], [[some "15/03/2024", some "Rp2.500"]]⟩

/-! Basic facts about rows, lookups and per-column assignments. -/

/-- Assigning one column leaves every other column untouched. -/
theorem rowGet_mapAtKey_ne {k : String} (f : Value → Value) (r : Row) {q : String}
    (h : q ≠ k) : rowGet (mapAtKey k f r) q = rowGet r q := by
  induction r with
  | nil => rfl
  | cons p r ih =>
    obtain ⟨a, v⟩ := p
    by_cases ha : a = q
    · subst ha
      have hak : ¬ (a = k) := fun hh => h (hh ▸ rfl)
      simp [mapAtKey, rowGet, hak]
    · simp [mapAtKey, rowGet, ha, ih]

/-- Assigning a column that the row carries applies the cell operation. -/
theorem rowGet_mapAtKey_self {k : String} (f : Value → Value) (r : Row)
    (hk : hasKey r k = true) : rowGet (mapAtKey k f r) k = f (rowGet r k) := by
  induction r with
  | nil => simp [hasKey] at hk
  | cons p r ih =>
    obtain ⟨a, v⟩ := p
    by_cases ha : a = k
    · subst ha
      simp [mapAtKey, rowGet]
    · simp [hasKey, ha] at hk
      simp [mapAtKey, rowGet, ha, ih hk]

/-- A column the row does not carry reads as the missing marker. -/
theorem rowGet_of_hasKey_false {r : Row} {k : String} (h : hasKey r k = false) :
    rowGet r k = Value.na := by
  induction r with
  | nil => rfl
  | cons p r ih =>
    obtain ⟨a, v⟩ := p
    by_cases ha : a = k
    · simp [hasKey, ha] at h
    · simp [hasKey, ha] at h
      simp [rowGet, ha, ih h]

/-- Column assignment does not change which columns a row carries. -/
theorem hasKey_mapAtKey (k : String) (f : Value → Value) (r : Row) (q : String) :
    hasKey (mapAtKey k f r) q = hasKey r q := by
  induction r with
  | nil => rfl
  | cons p r ih =>
    obtain ⟨a, v⟩ := p
    simp [mapAtKey, hasKey, ih]

/-- Appending a fresh column at the end leaves other lookups unchanged. -/
theorem rowGet_append_ne {a : String} {v : Value} {k : String} (r : Row)
    (h : k ≠ a) : rowGet (r ++ [(a, v)]) k = rowGet r k := by
  induction r with
  | nil =>
    have hak : ¬ (a = k) := fun hh => h hh.symm
    simp [rowGet, hak]
  | cons p r ih =>
    obtain ⟨b, w⟩ := p
    by_cases hb : b = k <;> simp [rowGet, hb, ih]

/-- Unfolding the column-name list of a cons row. -/
theorem keysOf_cons (p : String × Value) (r : Row) : keysOf (p :: r) = p.1 :: keysOf r := rfl

/-- Relabeling maps the column-name list. -/
theorem keysOf_mapRowKeys (f : String → String) (r : Row) :
    keysOf (mapRowKeys f r) = (keysOf r).map f := by
  simp [keysOf, mapRowKeys, List.map_map, Function.comp]

/-- Reading a raw row produces exactly the header columns. -/
theorem keysOf_readRow (hs : List String) (cs : List (Option String)) :
    keysOf (readRow hs cs) = hs := by
  induction hs generalizing cs with
  | nil => rfl
  | cons h t ih =>
    cases cs with
    | nil => simp [readRow, keysOf_cons, ih]
    | cons c cs2 => simp [readRow, keysOf_cons, ih]

/-- A row carries a column exactly when it appears in its name list. -/
theorem hasKey_iff_mem {r : Row} {k : String} : hasKey r k = true ↔ k ∈ keysOf r := by
  induction r with
  | nil => simp [hasKey, keysOf]
  | cons p r ih =>
    obtain ⟨a, v⟩ := p
    by_cases ha : a = k
    · subst ha
      simp [hasKey, keysOf_cons]
    · have hka : ¬ (k = a) := fun hh => ha hh.symm
      simp [hasKey, keysOf_cons, ha, hka, ih]

/-- A lookup result is missing or an actual cell of the row. -/
theorem rowGet_mem_or_na (r : Row) (k : String) :
    rowGet r k = Value.na ∨ (k, rowGet r k) ∈ r := by
  induction r with
  | nil => exact Or.inl rfl
  | cons p r ih =>
    obtain ⟨a, v⟩ := p
    by_cases ha : a = k
    · subst ha
      right
      simp [rowGet]
    · rcases ih with hna | hmem
      · left
        simp [rowGet, ha, hna]
      · right
        have hred : rowGet ((a, v) :: r) k = rowGet r k := by simp [rowGet, ha]
        rw [hred]
        exact List.mem_cons_of_mem _ hmem

/-! Shapes of cells at each stage of the financial pipeline. -/

/-- A cell as read is missing or non-empty raw text. -/
theorem readCell_shape (c : Option String) :
    readCell c = Value.na ∨ ∃ s, readCell c = Value.str s ∧ s ≠ "" := by
  cases c with
  | none => exact Or.inl rfl
  | some s =>
    by_cases h : s = ""
    · exact Or.inl (by simp [readCell, h])
    · exact Or.inr ⟨s, by simp [readCell, h], h⟩

/-- Every cell of a freshly read row is missing or non-empty raw text. -/
theorem readRow_snd_shape (hs : List String) (cs : List (Option String)) :
    ∀ p ∈ readRow hs cs, p.2 = Value.na ∨ ∃ s, p.2 = Value.str s ∧ s ≠ "" := by
  induction hs generalizing cs with
  | nil =>
    intro p hp
    simp [readRow] at hp
  | cons h t ih =>
    cases cs with
    | nil =>
      intro p hp
      simp only [readRow] at hp
      rcases List.mem_cons.1 hp with hpe | hp2
      · subst hpe
        exact Or.inl rfl
      · exact ih [] p hp2
    | cons c cs2 =>
      intro p hp
      simp only [readRow] at hp
      rcases List.mem_cons.1 hp with hpe | hp2
      · subst hpe
        exact readCell_shape c
      · exact ih cs2 p hp2

/-- The columns of a normalized, aliased financial row. -/
theorem keysOf_finRow0 (hs0 : List String) (cs : List (Option String)) :
    keysOf (finRow0 hs0 cs) = finHeadersL hs0 := by
  simp only [finRow0, keysOf_mapRowKeys, keysOf_readRow, finHeadersL]

/-- Cells of a normalized, aliased financial row are missing or non-empty
raw text (relabeling never touches the cell component). -/
theorem finRow0_shape (hs0 : List String) (cs : List (Option String)) (k : String) :
    rowGet (finRow0 hs0 cs) k = Value.na ∨
      ∃ s, rowGet (finRow0 hs0 cs) k = Value.str s ∧ s ≠ "" := by
  rcases rowGet_mem_or_na (finRow0 hs0 cs) k with h | h
  · exact Or.inl h
  · have hval : ∀ p ∈ finRow0 hs0 cs, p.2 = Value.na ∨ ∃ s, p.2 = Value.str s ∧ s ≠ "" := by
      intro p hp
      simp only [finRow0, mapRowKeys, List.map_map, List.mem_map] at hp
      obtain ⟨q, hq, hqp⟩ := hp
      have hsnd : p.2 = q.2 := by
        rw [← hqp]
        rfl
      rw [hsnd]
      exact readRow_snd_shape hs0 cs q hq
    rcases hval _ h with h2 | h2
    · exact Or.inl h2
    · exact Or.inr h2

/-- Date coercion yields a missing marker or a parsed date. -/
theorem toDatetimeCell_shape (v : Value) :
    toDatetimeCell v = Value.na ∨ ∃ d, toDatetimeCell v = Value.date d := by
  cases v with
  | str s =>
    cases hp : parseDate s with
    | none => exact Or.inl (by simp [toDatetimeCell, hp])
    | some d => exact Or.inr ⟨d, by simp [toDatetimeCell, hp]⟩
  | na => exact Or.inl rfl
  | num q => exact Or.inl rfl
  | date d => exact Or.inl rfl

/-- The date cell after the conversion step is missing or a parsed date. -/
theorem finDateRow_tanggal_shape (hs0 : List String) (cs : List (Option String)) :
    rowGet (finDateRow hs0 cs) "tanggal" = Value.na ∨
      ∃ d, rowGet (finDateRow hs0 cs) "tanggal" = Value.date d := by
  by_cases hk : hasKey (finRow0 hs0 cs) "tanggal" = true
  · simp only [finDateRow]
    rw [rowGet_mapAtKey_self _ _ hk]
    exact toDatetimeCell_shape _
  · have hk2 : hasKey (finRow0 hs0 cs) "tanggal" = false := by
      cases h2 : hasKey (finRow0 hs0 cs) "tanggal"
      · rfl
      · exact absurd h2 hk
    left
    simp only [finDateRow]
    exact rowGet_of_hasKey_false (by rw [hasKey_mapAtKey]; exact hk2)

/-! The guarded per-column assignments of the two cleaning loops. -/

/-- A guarded assignment leaves other columns untouched. -/
theorem rowGet_applyIfMem_ne (hs : List String) (k : String) (f : Value → Value) (r : Row)
    {q : String} (h : q ≠ k) : rowGet (applyIfMem hs k f r) q = rowGet r q := by
  simp only [applyIfMem]
  split
  · exact rowGet_mapAtKey_ne f r h
  · rfl

/-- A guarded assignment on a carried column applies the operation exactly
when the column is listed in the headers. -/
theorem rowGet_applyIfMem_self (hs : List String) (k : String) (f : Value → Value) (r : Row)
    (hk : hasKey r k = true) :
    rowGet (applyIfMem hs k f r) k = if k ∈ hs then f (rowGet r k) else rowGet r k := by
  by_cases h : k ∈ hs
  · simp only [applyIfMem, if_pos h]
    exact rowGet_mapAtKey_self f r hk
  · simp only [applyIfMem, if_neg h]

/-- A guarded assignment does not change which columns a row carries. -/
theorem hasKey_applyIfMem (hs : List String) (k : String) (f : Value → Value) (r : Row)
    (q : String) : hasKey (applyIfMem hs k f r) q = hasKey r q := by
  simp only [applyIfMem]
  split
  · exact hasKey_mapAtKey k f r q
  · rfl

/-- The numeric loop does not change which columns a row carries. -/
theorem hasKey_numClean (hs : List String) (r : Row) (q : String) :
    hasKey (numClean hs r) q = hasKey r q := by
  simp only [numClean, hasKey_applyIfMem]

/-- The categorical loop does not change which columns a row carries. -/
theorem hasKey_catClean (hs : List String) (r : Row) (q : String) :
    hasKey (catClean hs r) q = hasKey r q := by
  simp only [catClean, hasKey_applyIfMem]

/-- The numeric loop leaves non-monetary columns untouched. -/
theorem rowGet_numClean_other (hs : List String) (r : Row) {q : String}
    (h1 : q ≠ "pemasukan") (h2 : q ≠ "pengeluaran") (h3 : q ≠ "jumlahair") :
    rowGet (numClean hs r) q = rowGet r q := by
  simp only [numClean]
  rw [rowGet_applyIfMem_ne _ _ _ _ h3, rowGet_applyIfMem_ne _ _ _ _ h2,
    rowGet_applyIfMem_ne _ _ _ _ h1]

/-- The categorical loop leaves non-categorical columns untouched. -/
theorem rowGet_catClean_other (hs : List String) (r : Row) {q : String}
    (h1 : q ≠ "nopol") (h2 : q ≠ "sopir") (h3 : q ≠ "jenis transaksi") :
    rowGet (catClean hs r) q = rowGet r q := by
  simp only [catClean]
  rw [rowGet_applyIfMem_ne _ _ _ _ h3, rowGet_applyIfMem_ne _ _ _ _ h2,
    rowGet_applyIfMem_ne _ _ _ _ h1]

/-- On a carried monetary column, the numeric loop applies the monetary
cleaning exactly when the column is present in the headers. -/
theorem rowGet_numClean_key (hs : List String) (r : Row) (c : String)
    (hc : c = "pemasukan" ∨ c = "pengeluaran" ∨ c = "jumlahair") (hk : hasKey r c = true) :
    rowGet (numClean hs r) c = if c ∈ hs then moneyCell (rowGet r c) else rowGet r c := by
  rcases hc with rfl | rfl | rfl
  · simp only [numClean]
    rw [rowGet_applyIfMem_ne _ _ _ _ (by decide), rowGet_applyIfMem_ne _ _ _ _ (by decide),
      rowGet_applyIfMem_self _ _ _ _ hk]
  · simp only [numClean]
    rw [rowGet_applyIfMem_ne _ _ _ _ (by decide),
      rowGet_applyIfMem_self _ _ _ _ (by rw [hasKey_applyIfMem]; exact hk)]
    by_cases h2 : "pengeluaran" ∈ hs
    · rw [if_pos h2, if_pos h2, rowGet_applyIfMem_ne _ _ _ _ (by decide)]
    · rw [if_neg h2, if_neg h2, rowGet_applyIfMem_ne _ _ _ _ (by decide)]
  · simp only [numClean]
    rw [rowGet_applyIfMem_self _ _ _ _ (by rw [hasKey_applyIfMem, hasKey_applyIfMem]; exact hk)]
    by_cases h3 : "jumlahair" ∈ hs
    · rw [if_pos h3, if_pos h3, rowGet_applyIfMem_ne _ _ _ _ (by decide),
        rowGet_applyIfMem_ne _ _ _ _ (by decide)]
    · rw [if_neg h3, if_neg h3, rowGet_applyIfMem_ne _ _ _ _ (by decide),
        rowGet_applyIfMem_ne _ _ _ _ (by decide)]

/-- On a carried categorical column, the categorical loop applies the
backfill exactly when the column is present in the headers. -/
theorem rowGet_catClean_key (hs : List String) (r : Row) (c : String)
    (hc : c = "nopol" ∨ c = "sopir" ∨ c = "jenis transaksi") (hk : hasKey r c = true) :
    rowGet (catClean hs r) c = if c ∈ hs then fillTD (rowGet r c) else rowGet r c := by
  rcases hc with rfl | rfl | rfl
  · simp only [catClean]
    rw [rowGet_applyIfMem_ne _ _ _ _ (by decide), rowGet_applyIfMem_ne _ _ _ _ (by decide),
      rowGet_applyIfMem_self _ _ _ _ hk]
  · simp only [catClean]
    rw [rowGet_applyIfMem_ne _ _ _ _ (by decide),
      rowGet_applyIfMem_self _ _ _ _ (by rw [hasKey_applyIfMem]; exact hk)]
    by_cases h2 : "sopir" ∈ hs
    · rw [if_pos h2, if_pos h2, rowGet_applyIfMem_ne _ _ _ _ (by decide)]
    · rw [if_neg h2, if_neg h2, rowGet_applyIfMem_ne _ _ _ _ (by decide)]
  · simp only [catClean]
    rw [rowGet_applyIfMem_self _ _ _ _ (by rw [hasKey_applyIfMem, hasKey_applyIfMem]; exact hk)]
    by_cases h3 : "jenis transaksi" ∈ hs
    · rw [if_pos h3, if_pos h3, rowGet_applyIfMem_ne _ _ _ _ (by decide),
        rowGet_applyIfMem_ne _ _ _ _ (by decide)]
    · rw [if_neg h3, if_neg h3, rowGet_applyIfMem_ne _ _ _ _ (by decide),
        rowGet_applyIfMem_ne _ _ _ _ (by decide)]

/-- A date-converted row carries a column exactly when it is a header. -/
theorem hasKey_finDateRow (hs0 : List String) (cs : List (Option String)) (q : String) :
    hasKey (finDateRow hs0 cs) q = true ↔ q ∈ finHeadersL hs0 := by
  simp only [finDateRow]
  rw [hasKey_mapAtKey, hasKey_iff_mem, keysOf_finRow0]

/-- Contrapositive form of `hasKey_finDateRow`. -/
theorem hasKey_finDateRow_false (hs0 : List String) (cs : List (Option String)) (q : String)
    (h : q ∉ finHeadersL hs0) : hasKey (finDateRow hs0 cs) q = false := by
  cases hcase : hasKey (finDateRow hs0 cs) q
  · rfl
  · exact absurd ((hasKey_finDateRow hs0 cs q).1 hcase) h

/-- A monetary column of a fully cleaned row: the per-cell monetary
cleaning of that same column of the raw row when the column is present,
missing otherwise.  No other column influences the result. -/
theorem rowGet_finPost_money (hs0 : List String) (cs : List (Option String)) (c : String)
    (hc : c = "pemasukan" ∨ c = "pengeluaran" ∨ c = "jumlahair") :
    rowGet (finPostRow hs0 (finDateRow hs0 cs)) c =
      if c ∈ finHeadersL hs0 then Value.num (moneyQ (rowGet (finRow0 hs0 cs) c))
      else Value.na := by
  have hne_nb : c ≠ "Nama_Bulan" := by rcases hc with rfl | rfl | rfl <;> decide
  have hne1 : c ≠ "nopol" := by rcases hc with rfl | rfl | rfl <;> decide
  have hne2 : c ≠ "sopir" := by rcases hc with rfl | rfl | rfl <;> decide
  have hne3 : c ≠ "jenis transaksi" := by rcases hc with rfl | rfl | rfl <;> decide
  have hneT : c ≠ "tanggal" := by rcases hc with rfl | rfl | rfl <;> decide
  simp only [finPostRow, addMonthBucket]
  rw [rowGet_append_ne _ hne_nb, rowGet_catClean_other _ _ hne1 hne2 hne3]
  by_cases hin : c ∈ finHeadersL hs0
  · have hk : hasKey (finDateRow hs0 cs) c = true := (hasKey_finDateRow hs0 cs c).2 hin
    rw [rowGet_numClean_key _ _ c hc hk, if_pos hin, if_pos hin]
    simp only [finDateRow]
    rw [rowGet_mapAtKey_ne _ _ hneT]
    rfl
  · rw [if_neg hin]
    have hk : hasKey (finDateRow hs0 cs) c = false := hasKey_finDateRow_false hs0 cs c hin
    exact rowGet_of_hasKey_false (by rw [hasKey_numClean]; exact hk)

/-- A categorical column of a fully cleaned row: the sentinel backfill of
that same column of the raw row when the column is present, missing
otherwise.  No other column influences the result. -/
theorem rowGet_finPost_cat (hs0 : List String) (cs : List (Option String)) (c : String)
    (hc : c = "nopol" ∨ c = "sopir" ∨ c = "jenis transaksi") :
    rowGet (finPostRow hs0 (finDateRow hs0 cs)) c =
      if c ∈ finHeadersL hs0 then fillTD (rowGet (finRow0 hs0 cs) c)
      else Value.na := by
  have hne_nb : c ≠ "Nama_Bulan" := by rcases hc with rfl | rfl | rfl <;> decide
  have hm1 : c ≠ "pemasukan" := by rcases hc with rfl | rfl | rfl <;> decide
  have hm2 : c ≠ "pengeluaran" := by rcases hc with rfl | rfl | rfl <;> decide
  have hm3 : c ≠ "jumlahair" := by rcases hc with rfl | rfl | rfl <;> decide
  have hneT : c ≠ "tanggal" := by rcases hc with rfl | rfl | rfl <;> decide
  simp only [finPostRow, addMonthBucket]
  rw [rowGet_append_ne _ hne_nb]
  by_cases hin : c ∈ finHeadersL hs0
  · have hk0 : hasKey (finDateRow hs0 cs) c = true := (hasKey_finDateRow hs0 cs c).2 hin
    have hk : hasKey (numClean (finHeadersL hs0) (finDateRow hs0 cs)) c = true := by
      rw [hasKey_numClean]
      exact hk0
    rw [rowGet_catClean_key _ _ c hc hk, if_pos hin, if_pos hin,
      rowGet_numClean_other _ _ hm1 hm2 hm3]
    simp only [finDateRow]
    rw [rowGet_mapAtKey_ne _ _ hneT]
  · rw [if_neg hin]
    have hk : hasKey (finDateRow hs0 cs) c = false := hasKey_finDateRow_false hs0 cs c hin
    exact rowGet_of_hasKey_false (by rw [hasKey_catClean, hasKey_numClean]; exact hk)

/-- The date column is untouched after the date-conversion stage. -/
theorem rowGet_finPost_tanggal (hs0 : List String) (cs : List (Option String)) :
    rowGet (finPostRow hs0 (finDateRow hs0 cs)) "tanggal" =
      rowGet (finDateRow hs0 cs) "tanggal" := by
  simp only [finPostRow, addMonthBucket]
  rw [rowGet_append_ne _ (by decide),
    rowGet_catClean_other _ _ (by decide) (by decide) (by decide),
    rowGet_numClean_other _ _ (by decide) (by decide) (by decide)]

/-! Inversion of the two loaders. -/

/-- Exactly when the financial loader succeeds, and on what. -/
theorem load_keuangan_ok_iff (raw : RawTable) (out : Table) :
    load_keuangan_data (some raw) = LoadResult.ok out ↔
      ("tanggal" ∈ finHeadersL raw.headers ∧
        out = ⟨finHeadersL raw.headers ++ ["Nama_Bulan"],
          ((raw.rows.map (finDateRow raw.headers)).filter finKeepDate).map
            (finPostRow raw.headers)⟩) := by
  by_cases h : "tanggal" ∈ finHeadersL raw.headers <;>
    simp [load_keuangan_data, h, eq_comm]

/-- Every row of a successfully loaded financial table is the full
cleaning of some raw input row whose date survived the hard filter. -/
theorem mem_keuangan_rows {raw : RawTable} {out : Table} {r : Row}
    (hok : load_keuangan_data (some raw) = LoadResult.ok out) (hr : r ∈ out.rows) :
    ∃ cs, cs ∈ raw.rows ∧ finKeepDate (finDateRow raw.headers cs) = true ∧
      r = finPostRow raw.headers (finDateRow raw.headers cs) := by
  obtain ⟨hin, hout⟩ := (load_keuangan_ok_iff raw out).1 hok
  subst hout
  replace hr : r ∈ ((raw.rows.map (finDateRow raw.headers)).filter finKeepDate).map
      (finPostRow raw.headers) := hr
  rw [List.mem_map] at hr
  obtain ⟨x, hx, hxr⟩ := hr
  rw [List.mem_filter] at hx
  obtain ⟨hx1, hx2⟩ := hx
  rw [List.mem_map] at hx1
  obtain ⟨cs, hcs, hcsx⟩ := hx1
  subst hcsx
  exact ⟨cs, hcs, hx2, hxr.symm⟩

/-- A filter over a list on which the predicate is everywhere false is empty. -/
theorem filter_nil_of_all_false {α : Type} (p : α → Bool) (l : List α)
    (h : ∀ a ∈ l, p a = false) : l.filter p = [] := by
  induction l with
  | nil => rfl
  | cons a l ih =>
    have ha := h a (List.mem_cons_self a l)
    simp [List.filter_cons, ha, ih (fun b hb => h b (List.mem_cons_of_mem a hb))]

/-- A list is `isEmpty` exactly when it is nil. -/
theorem isEmpty_iff_nil {α : Type} (l : List α) : l.isEmpty = true ↔ l = [] := by
  cases l <;> simp [List.isEmpty]

/-- Exactly when the GPS loader returns a table, and which one. -/
theorem load_gps_some_iff (raw : RawTable) (out : Table) :
    load_gps_data (some raw) = some out ↔
      (("latitude" ∈ gpsHeadersL raw.headers ∧ "longitude" ∈ gpsHeadersL raw.headers) ∧
        gpsKeptRows raw ≠ [] ∧
        out = ⟨gpsHeadersL raw.headers, gpsKeptRows raw⟩) := by
  by_cases hh : ("latitude" ∈ gpsHeadersL raw.headers ∧ "longitude" ∈ gpsHeadersL raw.headers)
  · by_cases he : gpsKeptRows raw = []
    · simp [load_gps_data, hh, (isEmpty_iff_nil (gpsKeptRows raw)).2 he, he]
    · have he2 : (gpsKeptRows raw).isEmpty = false := by
        cases hcase : (gpsKeptRows raw).isEmpty
        · rfl
        · exact absurd ((isEmpty_iff_nil (gpsKeptRows raw)).1 hcase) he
      simp [load_gps_data, hh, he2, he, eq_comm]
  · simp [load_gps_data, hh]

/-- A coerced coordinate cell passing the range check is a number in range. -/
theorem numBetween_shape {lo hi : ℚ} {v : Value} (h : numBetween lo hi v = true) :
    ∃ q, v = Value.num q ∧ lo ≤ q ∧ q ≤ hi := by
  cases v with
  | num q =>
    simp only [numBetween, Bool.and_eq_true, decide_eq_true_eq] at h
    exact ⟨q, rfl, h.1, h.2⟩
  | na => simp [numBetween] at h
  | str s => simp [numBetween] at h
  | date d => simp [numBetween] at h

/-! The claims. -/

/-- C1, amended: in a successfully loaded financial table the income,
expense and water-volume fields are all non-negative provided no cell of
those columns parses, after currency and thousands-separator stripping,
to a negative number (missing or unparsable cells become 0).  The claim
as stated over all inputs is false: a parsable negative cell is carried
through unchanged, see the counterexample. -/
theorem fin_money_nonneg_amended (raw : RawTable) (out : Table)
    (hok : load_keuangan_data (some raw) = LoadResult.ok out)
    (hnn : ∀ cs ∈ raw.rows, ∀ c ∈ moneyCols, 0 ≤ moneyQ (rowGet (finRow0 raw.headers cs) c)) :
    ∀ r ∈ out.rows, ∀ c ∈ moneyCols, ∀ q : ℚ, rowGet r c = Value.num q → 0 ≤ q := by
  intro r hr c hc q hq
  obtain ⟨cs, hcs, _, rfl⟩ := mem_keuangan_rows hok hr
  have hshape := rowGet_finPost_money raw.headers cs c (by simpa [moneyCols] using hc)
  rw [hshape] at hq
  by_cases hin : c ∈ finHeadersL raw.headers
  · rw [if_pos hin] at hq
    simp only [Value.num.injEq] at hq
    rw [← hq]
    exact hnn cs hcs c hc
  · rw [if_neg hin] at hq
    exact absurd hq (by simp)

/-- C1 witness: a concrete successful load on which the amended theorem
yields non-negativity of the cleaned income 2000. -/
theorem fin_money_nonneg_witness :
    load_keuangan_data (some w1raw) = LoadResult.ok w1out ∧ (0 : ℚ) ≤ mkRat 2000 1 :=
  ⟨by decide,
    fin_money_nonneg_amended w1raw w1out (by decide) (by decide) w1row (by decide)
      "pemasukan" (by decide) (mkRat 2000 1) (by decide)⟩

/-- C1 counterexample: the income cell "-5" loads successfully into a
financial row whose income field is the negative number -5, refuting the
claim that all loaded monetary fields are non-negative for any input. -/
theorem fin_money_negative_cex :
    load_keuangan_data (some c1raw) = LoadResult.ok c1out ∧
      rowGet (c1out.rows.getD 0 []) "pemasukan" = Value.num (mkRat (-5) 1) ∧
      mkRat (-5) 1 < 0 := by decide

/-- C2, amended: when the GPS file reads successfully but every row is
removed by the coordinate filters, the loader shows an error and returns
the very same value as a load failure (None), and the `main` gate then
halts the whole dashboard, financial views included, instead of
rendering them. -/
theorem gps_empty_fatal_amended (raw : RawTable) (k : LoadResult Table)
    (h : ∀ cs ∈ raw.rows,
      (coordPresent (gpsCoordRow raw.headers cs)
        && coordInRange (gpsCoordRow raw.headers cs)) = false) :
    load_gps_data (some raw) = none ∧ load_gps_data (some raw) = load_gps_data none ∧
      dashboardRenders k (load_gps_data (some raw)) = false := by
  have hnil : gpsKeptRows raw = [] := by
    simp only [gpsKeptRows]
    apply filter_nil_of_all_false
    intro a ha
    rw [List.mem_filter] at ha
    obtain ⟨ha1, hpres⟩ := ha
    rw [List.mem_map] at ha1
    obtain ⟨cs, hcs, hcsa⟩ := ha1
    subst hcsa
    have hcomb := h cs hcs
    simpa [hpres] using hcomb
  have hnone : load_gps_data (some raw) = none := by
    by_cases hh : ("latitude" ∈ gpsHeadersL raw.headers ∧ "longitude" ∈ gpsHeadersL raw.headers)
    · simp [load_gps_data, hh, hnil]
    · simp [load_gps_data, hh]
  refine ⟨hnone, by rw [hnone]; rfl, by rw [hnone]; simp [dashboardRenders]⟩

/-- C2 witness: a concrete GPS file whose single row is out of range; the
amended theorem gives the None result and the halted dashboard. -/
theorem gps_empty_fatal_witness :
    load_gps_data (some w2raw) = none ∧
      dashboardRenders (LoadResult.ok w2fin) (load_gps_data (some w2raw)) = false :=
  ⟨(gps_empty_fatal_amended w2raw (LoadResult.ok w2fin) (by decide)).1,
    (gps_empty_fatal_amended w2raw (LoadResult.ok w2fin) (by decide)).2.2⟩

/-- C2 counterexample: a readable GPS file whose rows are all invalid
makes the loader return None — indistinguishable from the read-failure
result — and the dashboard gate refuses to render the financial views,
refuting the claimed empty table, distinct signal and partial render. -/
theorem gps_empty_signal_cex :
    load_gps_data (some c2raw) = none ∧ load_gps_data none = none ∧
      dashboardRenders (LoadResult.ok c2fin) (load_gps_data (some c2raw)) = false := by decide

/-- C3: the scenario row with date "15/03/2024" and income "Rp1.500.000"
loads into a record with date 2024-03-15, income 1500000 (currency prefix
and thousands separators stripped) and month bucket "2024-03 (March)". -/
theorem fin_scenario_march :
    load_keuangan_data (some c3raw) = LoadResult.ok c3out ∧
      rowGet (c3out.rows.getD 0 []) "tanggal" = Value.date ⟨2024, 3, 15⟩ ∧
      rowGet (c3out.rows.getD 0 []) "pemasukan" = Value.num (mkRat 1500000 1) ∧
      rowGet (c3out.rows.getD 0 []) "Nama_Bulan" = Value.str "2024-03 (March)" := by decide

/-- C4: every row of a successfully loaded financial table carries a
validly parsed date, and concretely an input row whose date cell is
"not-a-date" is absent from the output table. -/
theorem fin_dates_valid :
    (∀ (raw : RawTable) (out : Table), load_keuangan_data (some raw) = LoadResult.ok out →
      ∀ r ∈ out.rows, ∃ d, rowGet r "tanggal" = Value.date d) ∧
      load_keuangan_data (some c4raw) = LoadResult.ok c4out := by
  constructor
  · intro raw out hok r hr
    obtain ⟨cs, hcs, hkeep, rfl⟩ := mem_keuangan_rows hok hr
    rw [rowGet_finPost_tanggal]
    rcases finDateRow_tanggal_shape raw.headers cs with h | h
    · exfalso
      simp only [finKeepDate, h] at hkeep
      simp [Value.isNa] at hkeep
    · exact h
  · decide

/-- C4 witness: the surviving row of the concrete scenario has a parsed
date, obtained from the universal part of the theorem. -/
theorem fin_dates_valid_witness :
    ∃ d, rowGet c4row0 "tanggal" = Value.date d :=
  fin_dates_valid.1 c4raw c4out (by decide) c4row0 (by decide)

/-- C5: every row of a successfully loaded GPS table has numeric
coordinates with latitude in [-90, 90] and longitude in [-180, 180], and
concretely the scenario row lat "95", lon "110" is dropped while an
in-range row is retained. -/
theorem gps_coords_in_range :
    (∀ (raw : RawTable) (out : Table), load_gps_data (some raw) = some out →
      ∀ r ∈ out.rows, ∃ a b : ℚ,
        rowGet r "latitude" = Value.num a ∧ rowGet r "longitude" = Value.num b ∧
        -90 ≤ a ∧ a ≤ 90 ∧ -180 ≤ b ∧ b ≤ 180) ∧
      load_gps_data (some c5raw) = some c5out := by
  constructor
  · intro raw out hok r hr
    obtain ⟨hh, hne, hout⟩ := (load_gps_some_iff raw out).1 hok
    subst hout
    replace hr : r ∈ gpsKeptRows raw := hr
    simp only [gpsKeptRows] at hr
    rw [List.mem_filter] at hr
    obtain ⟨hr1, hir⟩ := hr
    simp only [coordInRange, Bool.and_eq_true] at hir
    obtain ⟨hlat, hlon⟩ := hir
    obtain ⟨a, ha, ha1, ha2⟩ := numBetween_shape hlat
    obtain ⟨b, hb, hb1, hb2⟩ := numBetween_shape hlon
    exact ⟨a, b, ha, hb, ha1, ha2, hb1, hb2⟩
  · decide

/-- C5 witness: the retained row of the concrete scenario, with its
in-range coordinates, obtained from the universal part of the theorem. -/
theorem gps_coords_in_range_witness :
    ∃ a b : ℚ, rowGet c5row0 "latitude" = Value.num a ∧ rowGet c5row0 "longitude" = Value.num b ∧
      -90 ≤ a ∧ a ≤ 90 ∧ -180 ≤ b ∧ b ≤ 180 :=
  gps_coords_in_range.1 c5raw c5out (by decide) c5row0 (by decide)

/-- C6: a GPS row with lat "1,234" and lon "103,456" has its decimal
commas replaced by points and is retained with latitude 1.234 and
longitude 103.456. -/
theorem gps_decimal_comma :
    load_gps_data (some c6raw) = some c6out ∧
      rowGet (c6out.rows.getD 0 []) "latitude" = Value.num (mkRat 1234 1000) ∧
      rowGet (c6out.rows.getD 0 []) "longitude" = Value.num (mkRat 103456 1000) := by decide

/-- C7: in a successfully loaded financial table, every present
categorical column (plate, driver, transaction type) holds a non-empty
string in every row — missing cells having been replaced by the sentinel
— and concretely a missing driver cell becomes "Tidak Diketahui". -/
theorem fin_cat_nonempty :
    (∀ (raw : RawTable) (out : Table), load_keuangan_data (some raw) = LoadResult.ok out →
      ∀ r ∈ out.rows, ∀ c ∈ catColsL, c ∈ finHeadersL raw.headers →
        ∃ s, rowGet r c = Value.str s ∧ s ≠ "") ∧
      load_keuangan_data (some c7raw) = LoadResult.ok c7out := by
  constructor
  · intro raw out hok r hr c hc hin
    obtain ⟨cs, hcs, _, rfl⟩ := mem_keuangan_rows hok hr
    rw [rowGet_finPost_cat raw.headers cs c (by simpa [catColsL] using hc), if_pos hin]
    rcases finRow0_shape raw.headers cs c with h | ⟨s, hs2, hne⟩
    · exact ⟨"Tidak Diketahui", by rw [h]; rfl, by decide⟩
    · exact ⟨s, by rw [hs2]; rfl, hne⟩
  · decide

/-- C7 witness: the driver field of the concrete scenario row is a
non-empty string, obtained from the universal part of the theorem. -/
theorem fin_cat_nonempty_witness :
    ∃ s, rowGet c7row0 "sopir" = Value.str s ∧ s ≠ "" :=
  fin_cat_nonempty.1 c7raw c7out (by decide) c7row0 (by decide) "sopir" (by decide) (by decide)

/-- C8: when the financial file cannot be read, the except handler itself
crashes — its diagnostic line reads the unbound `df` — so the loader
propagates an uncaught exception instead of returning a load failure,
contradicting the claim (the code slip, not the spec, is at fault). -/
theorem fin_read_failure_raises : load_keuangan_data none = LoadResult.raised := rfl

/-- C9: a readable financial file with no date column after normalization
and aliasing makes the loader return a load failure, not a table. -/
theorem fin_missing_date_col_fails (raw : RawTable)
    (h : "tanggal" ∉ finHeadersL raw.headers) :
    load_keuangan_data (some raw) = LoadResult.failed := by
  simp [load_keuangan_data, h]

/-- C9 witness: a concrete dateless financial file fails to load. -/
theorem fin_missing_date_col_witness :
    load_keuangan_data (some w9raw) = LoadResult.failed :=
  fin_missing_date_col_fails w9raw (by decide)

/-- C10: a financial file with a date column loads successfully whatever
subset of the monetary and categorical columns is present; each present
column is cleaned by exactly its own per-cell rule applied to its own
cell, and each absent column is skipped, yielding a missing field. -/
theorem fin_optional_columns (raw : RawTable) (h : "tanggal" ∈ finHeadersL raw.headers) :
    ∃ out : Table, load_keuangan_data (some raw) = LoadResult.ok out ∧
      ∀ r ∈ out.rows, ∃ cs, cs ∈ raw.rows ∧
        (∀ c ∈ moneyCols, rowGet r c =
          (if c ∈ finHeadersL raw.headers
            then Value.num (moneyQ (rowGet (finRow0 raw.headers cs) c)) else Value.na)) ∧
        (∀ c ∈ catColsL, rowGet r c =
          (if c ∈ finHeadersL raw.headers
            then fillTD (rowGet (finRow0 raw.headers cs) c) else Value.na)) := by
  have hok : load_keuangan_data (some raw) = LoadResult.ok
      ⟨finHeadersL raw.headers ++ ["Nama_Bulan"],
        ((raw.rows.map (finDateRow raw.headers)).filter finKeepDate).map
          (finPostRow raw.headers)⟩ :=
    (load_keuangan_ok_iff raw _).2 ⟨h, rfl⟩
  refine ⟨_, hok, ?_⟩
  intro r hr
  obtain ⟨cs, hcs, _, rfl⟩ := mem_keuangan_rows hok hr
  exact ⟨cs, hcs,
    fun c hc => rowGet_finPost_money raw.headers cs c (by simpa [moneyCols] using hc),
    fun c hc => rowGet_finPost_cat raw.headers cs c (by simpa [catColsL] using hc)⟩

/-- C10 witness: the theorem instantiated at a file carrying only the
date and income columns. -/
theorem fin_optional_columns_witness :
    ∃ out : Table, load_keuangan_data (some w10raw) = LoadResult.ok out ∧
      ∀ r ∈ out.rows, ∃ cs, cs ∈ w10raw.rows ∧
        (∀ c ∈ moneyCols, rowGet r c =
          (if c ∈ finHeadersL w10raw.headers
            then Value.num (moneyQ (rowGet (finRow0 w10raw.headers cs) c)) else Value.na)) ∧
        (∀ c ∈ catColsL, rowGet r c =
          (if c ∈ finHeadersL w10raw.headers
            then fillTD (rowGet (finRow0 w10raw.headers cs) c) else Value.na)) :=
  fin_optional_columns w10raw (by decide)

end WaterDash
